import Mathlib

/-!
Verification development for the cloudify invocation core (cloudify.ts,
aws/aws-cloudify.ts, process-cloudify.ts).

The TypeScript source is shallowly embedded: JavaScript runtime values are
modelled by the inductive type JsValue (with JavaScript truthiness and the
short-circuiting conjunction operator), promises that may reject are modelled
by Except, and each source function becomes a pure Lean function in which
wall-clock reads and fresh uuid draws appear as explicit parameters.
-/

/-- A JavaScript runtime value, as far as the embedded code inspects one:
undefined, null, booleans, numbers (integral; the code only subtracts
timestamps), strings, arrays, and plain objects as ordered field lists. -/
inductive JsValue where
  | undefined
  | null
  | bool (b : Bool)
  | num (n : Int)
  | str (s : String)
  | arr (elems : List JsValue)
  | obj (fields : List (String × JsValue))

/-- JavaScript truthiness for the embedded values (NaN does not arise:
the embedded code only handles integral timestamps). -/
def truthy : JsValue → Bool
  | .undefined => false
  | .null => false
  | .bool b => b
  | .num n => n != 0
  | .str s => s != ""
  | .arr _ => true
  | .obj _ => true

/-- The JavaScript expression a && b: yields a when a is falsy, else b. -/
def jsAnd (a b : JsValue) : JsValue :=
  if truthy a then b else a

/-- The JavaScript strict comparison v === lit against a string literal:
true exactly when v is that string. -/
def strictEqStr (v : JsValue) (lit : String) : Bool :=
  match v with
  | .str s => s = lit
  | _ => false

/-- Field lookup in an object field list; absent fields read as undefined. -/
def findProp : List (String × JsValue) → String → JsValue
  | [], _ => .undefined
  | (a, v) :: rest, k => if k = a then v else findProp rest k

/-- JavaScript property read v.k: only objects expose the embedded fields,
any other value reads as undefined. -/
def getProp : JsValue → String → JsValue
  | .obj fields, k => findProp fields k
  | _, _ => .undefined

/-- The observable identity of a JavaScript Error object: its name, message
and stack properties, each an arbitrary runtime value. -/
structure JsError where
  name : JsValue
  message : JsValue
  stack : JsValue

/-- The error rebuilt by processResponse and by the aws direct path from the
value carried by an error Return: new Error(errValue.message) followed by
assignments of name and stack copies those three properties verbatim. -/
def mkRemoteError (errValue : JsValue) : JsError :=
  { name := getProp errValue "name"
  , message := getProp errValue "message"
  , stack := getProp errValue "stack" }

/-- The wire Call envelope (shared.ts is not under src/; the fields are the
ones the embedded code constructs and reads, matching the wire shape
name, args, CallId, start). -/
structure FunctionCall where
  name : String
  args : List JsValue
  CallId : String
  start : Int

/-- The type tag of a Return: the string literal union of value and error. -/
inductive ReturnType where
  | value
  | error
deriving DecidableEq

/-- The wire Return envelope (shared.ts is not under src/; the fields are the
ones the embedded code constructs and reads: type, value, CallId, the two
optional execution timestamps, and the raw transport response). -/
structure FunctionReturn where
  type : ReturnType
  value : JsValue
  CallId : String
  executionStart : Option Int := none
  executionEnd : Option Int := none
  rawResponse : JsValue := .undefined

/-- The caller-facing Response envelope of cloudify.ts: value, the rebuilt
error if any, the raw transport response, and the three optional latency
fields which are set together or not at all. -/
structure Response where
  value : JsValue
  error : Option JsError
  rawResponse : JsValue
  startLatency : Option Int := none
  executionLatency : Option Int := none
  returnLatency : Option Int := none

/-- A running latency average kept as sample count plus total, so that merging
one observation is adding to both. Modelled from the spec: the metrics
implementation behind FunctionMetricsMap is not under src/; the spec gives
runningLatencyAverages for start, execution and return per function name. -/
structure LatencyAgg where
  samples : Nat
  total : Int

/-- Merge one latency observation into a running average. -/
def LatencyAgg.add (a : LatencyAgg) (x : Int) : LatencyAgg :=
  { samples := a.samples + 1, total := a.total + x }

/-- Per-function ledger entry. Modelled from the spec: per function name,
completedCount, errorCount and the three running latency averages. -/
structure FunctionMetrics where
  completed : Nat
  errors : Nat
  startLatency : LatencyAgg
  executionLatency : LatencyAgg
  returnLatency : LatencyAgg

/-- The all-zero ledger entry a fresh facade starts from. -/
def FunctionMetrics.empty : FunctionMetrics :=
  { completed := 0, errors := 0
  , startLatency := ⟨0, 0⟩, executionLatency := ⟨0, 0⟩, returnLatency := ⟨0, 0⟩ }

/-- The ledger: one FunctionMetrics per function name. Modelled from the
spec: the FunctionMetricsMap implementation is not under src/, only its
call sites in processResponse are. -/
abbrev FunctionMetricsMap := String → FunctionMetrics

/-- The two counters processResponse increments by name. -/
inductive CounterKind where
  | completed
  | errors
deriving DecidableEq

/-- Modelled from the spec: metrics.increment(fn, counter) adds one to the
named monotone counter of the named function and touches nothing else. -/
def increment (m : FunctionMetricsMap) (fn : String) (k : CounterKind) :
    FunctionMetricsMap :=
  fun g =>
    if g = fn then
      match k with
      | .completed => { m fn with completed := (m fn).completed + 1 }
      | .errors => { m fn with errors := (m fn).errors + 1 }
    else m g

/-- The latencies object built by processResponse, in source field order. -/
structure Latencies where
  executionLatency : Int
  startLatency : Int
  returnLatency : Int

/-- Modelled from the spec: metrics.updateMany(fn, latencies) merges the three
latency observations into the named function entry and touches nothing else. -/
def updateMany (m : FunctionMetricsMap) (fn : String) (l : Latencies) :
    FunctionMetricsMap :=
  fun g =>
    if g = fn then
      { m fn with
        startLatency := (m fn).startLatency.add l.startLatency
        executionLatency := (m fn).executionLatency.add l.executionLatency
        returnLatency := (m fn).returnLatency.add l.returnLatency }
    else m g

/-- processResponse of cloudify.ts. The Date.now() read is the explicit
parameter now; the metrics mutation is returned as the second component.
When the Return is error-typed the local error is rebuilt from the carried
value; the JavaScript expression value = !error && returned.value is kept
verbatim through jsAnd (it yields the literal false when an error is set).
The latency branch tests JavaScript truthiness of the two timestamps, so a
timestamp equal to 0 behaves like an absent one. -/
def processResponse (returned : FunctionReturn) (callRequest : FunctionCall)
    (metrics : FunctionMetricsMap) (now : Int) :
    Response × FunctionMetricsMap :=
  let error : Option JsError :=
    match returned.type with
    | .error => some (mkRemoteError returned.value)
    | .value => none
  let value : JsValue := jsAnd (JsValue.bool error.isNone) returned.value
  let rv : Response :=
    { value := value, error := error, rawResponse := returned.rawResponse }
  let fn := callRequest.name
  let m1 := increment metrics fn CounterKind.completed
  let withLat : Response × FunctionMetricsMap :=
    match returned.executionStart, returned.executionEnd with
    | some es, some ee =>
      if es = 0 ∨ ee = 0 then (rv, m1)
      else
        let latencies : Latencies :=
          { executionLatency := ee - es
          , startLatency := es - callRequest.start
          , returnLatency := now - ee }
        ({ rv with
            executionLatency := some latencies.executionLatency
            startLatency := some latencies.startLatency
            returnLatency := some latencies.returnLatency },
          updateMany m1 fn latencies)
    | _, _ => (rv, m1)
  let m3 : FunctionMetricsMap :=
    match error with
    | some _ => increment withLat.2 fn CounterKind.errors
    | none => withLat.2
  (withLat.1, m3)

/-- A JavaScript function value, as far as the facade inspects one: the
wrapping only ever reads fn.name. -/
structure JsFunc where
  name : String

/-- The Call built at the top of CloudFunction.cloudifyWithResponse:
name from the wrapped function, the invocation arguments, CallId = uuidv4()
drawn from a fresh-id supply gen at invocation index i, start = Date.now()
at submission. The uuid library is external; it is modelled as the supply
gen of pairwise distinct strings. -/
def facadeBuildCall (gen : Nat → String) (fn : JsFunc) (args : List JsValue)
    (i : Nat) (now : Int) : FunctionCall :=
  { name := fn.name, args := args, CallId := gen i, start := now }

/-- One invocation of the proxy returned by CloudFunction.cloudifyWithResponse.
The backend promise impl.callFunction(state, callRequest) is the explicit
parameter backend: ok r models resolution with the Return r, error v models
rejection with reason v. The attached catch turns a rejection into the
synthesized error Return with executionStart = start (the submission time)
and executionEnd = failTime (the Date.now() read inside the catch), and
either Return is handed to processResponse, so the function is total: the
proxy always resolves with a Response. -/
def cloudifyWithResponse (fn : JsFunc) (args : List JsValue)
    (callId : String) (start : Int)
    (backend : Except JsValue FunctionReturn) (failTime now : Int)
    (metrics : FunctionMetricsMap) : Response × FunctionMetricsMap :=
  let callRequest : FunctionCall :=
    { name := fn.name, args := args, CallId := callId, start := start }
  let rv : FunctionReturn :=
    match backend with
    | .ok r => r
    | .error value =>
      { type := .error, value := value, CallId := callId
      , executionStart := some start, executionEnd := some failTime }
  processResponse rv callRequest metrics now

/-- One invocation of the proxy returned by CloudFunction.cloudify: it runs
the with-response proxy and unwraps the Response, throwing the rebuilt error
(modelled as the Except error case) or returning the bare value. -/
def cloudify (fn : JsFunc) (args : List JsValue)
    (callId : String) (start : Int)
    (backend : Except JsValue FunctionReturn) (failTime now : Int)
    (metrics : FunctionMetricsMap) :
    Except JsError JsValue × FunctionMetricsMap :=
  let r := cloudifyWithResponse fn args callId start backend failTime now metrics
  match r.1.error with
  | some e => (.error e, r.2)
  | none => (.ok r.1.value, r.2)

/-- One own enumerable entry of a namespace object handed to cloudifyAll:
either a function value or any other value. -/
inductive ModuleEntry where
  | func (f : JsFunc)
  | other (v : JsValue)

/-- An entry of the object cloudifyAll or cloudifyAllWithResponse builds:
the wrapped proxy for the named function. -/
inductive WrappedEntry where
  | promisified (f : JsFunc)
  | responsified (f : JsFunc)

/-- CloudFunction.cloudifyAll: iterate Object.keys of the input in order and
copy a cloudified proxy for each function-valued entry into a fresh object;
entries that are not functions are skipped. -/
def cloudifyAll (mod : List (String × ModuleEntry)) :
    List (String × WrappedEntry) :=
  mod.filterMap fun kv =>
    match kv.2 with
    | .func f => some (kv.1, .promisified f)
    | .other _ => none

/-- CloudFunction.cloudifyAllWithResponse: same iteration, wrapping each
function-valued entry with the with-response proxy instead. -/
def cloudifyAllWithResponse (mod : List (String × ModuleEntry)) :
    List (String × WrappedEntry) :=
  mod.filterMap fun kv =>
    match kv.2 with
    | .func f => some (kv.1, .responsified f)
    | .other _ => none

namespace Aws

/-- The callArgs object literal built inside the aws cloudifyWithResponse:
exactly the two fields name and args, nothing else. -/
def buildCallArgs (fn : JsFunc) (args : List JsValue) : JsValue :=
  .obj [("name", .str fn.name), ("args", .arr args)]

/-- new Error(message) as the aws path uses it for a FunctionError payload:
default name Error; the runtime-generated stack is modelled as undefined. -/
def newError (message : JsValue) : JsError :=
  { name := .str "Error", message := message, stack := .undefined }

/-- The error the aws path derives from rawResponse.FunctionError:
new Error(rawResponse.Payload as string) when FunctionError is truthy. -/
def errorFromFunctionError (rawResponse : JsValue) : Option JsError :=
  if truthy (getProp rawResponse "FunctionError") then
    some (newError (getProp rawResponse "Payload"))
  else none

/-- The expression returned = !error && rawResponse.Payload &&
JSON.parse(rawResponse.Payload as string) of the aws path, with JSON.parse
the explicit parameter parse (applied to string payloads; jsAnd only
reaches it when the payload is truthy). -/
def returnedOf (parse : String → JsValue) (rawResponse : JsValue) : JsValue :=
  let payload := getProp rawResponse "Payload"
  let parsed : JsValue :=
    match payload with
    | .str s => parse s
    | _ => .undefined
  jsAnd (jsAnd (.bool (errorFromFunctionError rawResponse).isNone) payload)
    parsed

/-- The Response the aws cloudifyWithResponse builds from a resolved invoke:
the FunctionError check, the parsed Return, the remote error rebuilt
verbatim when returned && returned.type === "error", and the value
expression !error && returned && returned.value kept through jsAnd. -/
def processRawResponse (parse : String → JsValue) (rawResponse : JsValue) :
    Response :=
  let returned := returnedOf parse rawResponse
  let error : Option JsError :=
    if truthy returned && strictEqStr (getProp returned "type") "error" then
      some (mkRemoteError (getProp returned "value"))
    else errorFromFunctionError rawResponse
  let value : JsValue :=
    jsAnd (jsAnd (.bool error.isNone) returned) (getProp returned "value")
  { value := value, error := error, rawResponse := rawResponse }

/-- One invocation of the proxy returned by the aws cloudifyWithResponse.
JSON.stringify and JSON.parse are the explicit parameters stringify and
parse; invoke models state.lambda.invoke(request).promise(), whose await
carries no catch, so a transport rejection (the error case of invoke)
propagates and the whole invocation rejects: the result type is Except. -/
def cloudifyWithResponse (stringify : JsValue → String)
    (parse : String → JsValue) (FunctionName : String)
    (fn : JsFunc) (args : List JsValue)
    (invoke : JsValue → Except JsValue JsValue) :
    Except JsValue Response :=
  let callArgs : JsValue := buildCallArgs fn args
  let callArgsStr : String := stringify callArgs
  let request : JsValue :=
    .obj [("FunctionName", .str FunctionName), ("LogType", .str "Tail"),
          ("Payload", .str callArgsStr)]
  match invoke request with
  | .error e => .error e
  | .ok rawResponse => .ok (processRawResponse parse rawResponse)

end Aws

namespace Aws

/-- carefully(request) of aws-cloudify.ts: await the promise, and on
rejection log the error and yield undefined. The result is the optional
value together with the log entries emitted, so a failure can never
propagate past it. -/
def carefully {A : Type} (r : Except JsValue A) : Option A × List JsValue :=
  match r with
  | .ok a => (some a, [])
  | .error e => (none, [e])

/-- quietly(request) of aws-cloudify.ts: await the promise and swallow a
rejection silently, yielding undefined with no log entry. -/
def quietly {A : Type} (r : Except JsValue A) : Option A × List JsValue :=
  match r with
  | .ok a => (some a, [])
  | .error _ => (none, [])

/-- One deletion-side service request the cleanup path can issue. -/
inductive Op where
  | deleteFunction (FunctionName : String)
  | listAttachedRolePolicies (RoleName : String)
  | detachRolePolicy (RoleName PolicyArn : String)
  | deleteRolePolicy (RoleName PolicyName : String)
  | deleteRole (RoleName : String)
  | deleteLogGroup (logGroupName : String)
deriving DecidableEq

/-- The backend world: the outcome each service request would have, one
field per request kind used by the cleanup path. An error value models a
rejected AWS request, including the resource-not-found rejection returned
when the resource is already absent. -/
structure World where
  deleteFunctionR : String → Except JsValue Unit
  listAttachedRolePoliciesR : String → Except JsValue (List String)
  detachRolePolicyR : String → String → Except JsValue Unit
  deleteRolePolicyR : String → String → Except JsValue Unit
  deleteRoleR : String → Except JsValue Unit
  deleteLogGroupR : String → Except JsValue Unit

/-- deleteRole of aws-cloudify.ts: list the attached policies carefully
(a failure leaves the list empty), detach each carefully, delete the inline
no-create-log-group policy if one is recorded, then delete the role
carefully. The result is the trace of requests issued and the log entries;
every step runs regardless of earlier failures. -/
def deleteRole (w : World) (RoleName : String)
    (noCreateLogGroupPolicy : Option String) : List Op × List JsValue :=
  let listed := carefully (w.listAttachedRolePoliciesR RoleName)
  let AttachedPolicies := listed.1.getD []
  let detaches := AttachedPolicies.map fun PolicyArn =>
    (Op.detachRolePolicy RoleName PolicyArn,
     (carefully (w.detachRolePolicyR RoleName PolicyArn)).2)
  let inline :=
    match noCreateLogGroupPolicy with
    | some PolicyName =>
      if PolicyName = "" then ([], [])
      else ([Op.deleteRolePolicy RoleName PolicyName],
            (carefully (w.deleteRolePolicyR RoleName PolicyName)).2)
    | none => (([] : List Op), ([] : List JsValue))
  let final := (carefully (w.deleteRoleR RoleName)).2
  (Op.listAttachedRolePolicies RoleName :: detaches.map Prod.fst
     ++ inline.1 ++ [Op.deleteRole RoleName],
   listed.2 ++ (detaches.map Prod.snd).flatten ++ inline.2 ++ final)

/-- The fields of the state object cleanup reads; each AWSVariables field is
optional there (the caller may pass a partially-populated state). -/
structure CleanupState where
  FunctionName : Option String := none
  RoleName : Option String := none
  logGroupName : Option String := none
  roleNeedsCleanup : Option Bool := none
  noCreateLogGroupPolicy : Option String := none

/-- JavaScript truthiness of an optional string field: present and
nonempty. -/
def optStrTruthy : Option String → Bool
  | none => false
  | some s => s != ""

/-- cleanup of aws-cloudify.ts: delete the function carefully when a name is
recorded, run deleteRole when a role name is recorded and flagged for
cleanup, and delete the log group carefully when one is recorded. The
result is the trace of requests issued and the log entries; every carefully
wrapper confines its failure, so cleanup is total and a failed step never
stops the later ones. -/
def cleanup (w : World) (st : CleanupState) : List Op × List JsValue :=
  let funcStep :=
    match st.FunctionName with
    | some f =>
      if f = "" then ([], [])
      else ([Op.deleteFunction f], (carefully (w.deleteFunctionR f)).2)
    | none => (([] : List Op), ([] : List JsValue))
  let roleStep :=
    match st.RoleName with
    | some r =>
      if r = "" then ([], [])
      else if st.roleNeedsCleanup.getD false then
        deleteRole w r st.noCreateLogGroupPolicy
      else ([], [])
    | none => (([] : List Op), ([] : List JsValue))
  let logStep :=
    match st.logGroupName with
    | some g =>
      if g = "" then ([], [])
      else ([Op.deleteLogGroup g], (carefully (w.deleteLogGroupR g)).2)
    | none => (([] : List Op), ([] : List JsValue))
  (funcStep.1 ++ roleStep.1 ++ logStep.1,
   funcStep.2 ++ roleStep.2 ++ logStep.2)

end Aws

namespace ProcessCloudify

/-- The funnel state the process backend sees: queued task ids not yet
started and the ids of tasks already admitted and running. Modelled from
the spec: funnel.ts is not under src/; the spec describes a FIFO queue of
not-yet-started operations separate from the running set. -/
structure Funnel where
  pending : List Nat
  running : List Nat

/-- Modelled from the spec: clearPending removes every operation still
queued without starting it and leaves running operations untouched. -/
def Funnel.clearPending (f : Funnel) : Funnel :=
  { f with pending := [] }

/-- The process backend state: the set of live child processes (each child
removes itself from the set on its exit or error event) and the call
funnel. -/
structure State where
  childProcesses : List Nat
  callFunnel : Funnel

/-- What stop of process-cloudify.ts does, in order: clear the pending
funnel tasks, snapshot the live children into the exit promises awaited by
Promise.all, send each child a kill signal, and await the snapshot. The
result records the new state, the children signalled, and the children
whose exit events must fire before the stop promise resolves. -/
structure StopOutcome where
  state : State
  killed : List Nat
  awaited : List Nat

/-- stop of process-cloudify.ts. -/
def stop (s : State) : StopOutcome :=
  let funnel := s.callFunnel.clearPending
  let children := s.childProcesses
  { state := { s with callFunnel := funnel }
  , killed := children
  , awaited := children }

/-- Promise.all over the per-child exit promises: the stop promise is
resolved under an exit assignment exactly when every awaited child has
exited. -/
def stopResolved (exited : Nat → Bool) (awaited : List Nat) : Bool :=
  awaited.all exited

end ProcessCloudify

namespace Gc

/-- Modelled from the spec: the garbage collector is code of this
repository that is not under src/ (only the google GC test that drives it
is). A ResourceRecord is the unit it acts on: owner instance id, the
resource descriptors of that instance, and the creation time. -/
structure ResourceRecord where
  ownerInstanceId : String
  resourceDescriptors : List String
  createdAt : Int
deriving DecidableEq

/-- Modelled from the spec: the partition step marks as orphan exactly the
records owned by another instance and at least the retention threshold
old; records of the current instance, and younger records of others, are
left untouched. -/
def isOrphan (own : String) (retention nowT : Int) (rec : ResourceRecord) :
    Bool :=
  rec.ownerInstanceId != own && decide (retention ≤ nowT - rec.createdAt)

/-- Modelled from the spec: the reclamation worker is invoked with one
orphan record and attempts to delete every resource descriptor belonging
to it, tolerating and logging (never aborting on, never raising) each
individual deletion failure, since a resource may already be gone. The
result is the descriptors attempted and the failures logged. -/
def worker (deleteResource : String → Except JsValue Unit)
    (rec : ResourceRecord) : List String × List JsValue :=
  (rec.resourceDescriptors,
   (rec.resourceDescriptors.map fun d =>
      match deleteResource d with
      | .ok _ => []
      | .error e => [e]).flatten)

/-- Modelled from the spec: one reclamation pass over the discovered
records runs the worker on every orphan of the partition. The pass is a
total function of the deletion outcomes — a rejected deletion, including
the resource-not-found rejection of an already absent resource, only adds
a log entry — so the pass never raises, on a first run or on a rerun over
an already emptied resource set. -/
def reclaim (deleteResource : String → Except JsValue Unit) (own : String)
    (retention nowT : Int) (records : List ResourceRecord) :
    List String × List JsValue :=
  let orphans := records.filter (isOrphan own retention nowT)
  ((orphans.map fun rec => (worker deleteResource rec).1).flatten,
   (orphans.map fun rec => (worker deleteResource rec).2).flatten)

end Gc

/-! Concrete inputs used by witnesses and counterexamples, and derived
definitions the theorems below quantify over. -/

/-- The ledger of a freshly constructed facade: every counter zero. -/
def emptyLedger : FunctionMetricsMap := fun _ => FunctionMetrics.empty

/-- The error value shape the wire protocol carries for a remote error:
an object with name, message and stack string fields. -/
def errObj (N M S : String) : JsValue :=
  .obj [("name", .str N), ("message", .str M), ("stack", .str S)]

/-- JavaScript truthiness of both execution timestamps of a Return: the
condition under which processResponse computes and merges latencies. -/
def truthyTimestamps (ret : FunctionReturn) : Bool :=
  match ret.executionStart, ret.executionEnd with
  | some es, some ee => !(decide (es = 0 ∨ ee = 0))
  | _, _ => false

/-- The ledger state after processResponse handles one Return. -/
def postLedger (ret : FunctionReturn) (call : FunctionCall)
    (m : FunctionMetricsMap) (now : Int) : FunctionMetricsMap :=
  (processResponse ret call m now).2

/-- The ledger after a facade lifetime of processed Returns, each event a
Return with its Call and the wall time it was processed at. -/
def processAll (events : List (FunctionReturn × FunctionCall × Int))
    (m : FunctionMetricsMap) : FunctionMetricsMap :=
  events.foldl (fun acc e => (processResponse e.1 e.2.1 acc e.2.2).2) m

/-- The typeof entry === "function" test of the cloudifyAll loops. -/
def isFuncEntry : ModuleEntry → Bool
  | .func _ => true
  | .other _ => false

/-- The Return of the spec example: executionStart 1050, executionEnd 1200. -/
def specExampleReturn : FunctionReturn :=
  { type := .value, value := .num 42, CallId := "c1"
  , executionStart := some 1050, executionEnd := some 1200 }

/-- The Call of the spec example: submitted at 1000. -/
def specExampleCall : FunctionCall :=
  { name := "f", args := [], CallId := "c1", start := 1000 }

/-- A Return carrying executionStart = 0, a present but falsy timestamp. -/
def zeroStartReturn : FunctionReturn :=
  { type := .value, value := .num 7, CallId := "c0"
  , executionStart := some 0, executionEnd := some 1200 }

/-- The Call paired with zeroStartReturn. -/
def zeroStartCall : FunctionCall :=
  { name := "f", args := [], CallId := "c0", start := 1000 }

/-- A Return carrying the remote error of the spec example. -/
def validationReturn : FunctionReturn :=
  { type := .error, value := errObj "ValidationError" "bad input" "st"
  , CallId := "c4" }

/-- The Call paired with validationReturn. -/
def validationCall : FunctionCall :=
  { name := "h", args := [], CallId := "c4", start := 0 }

/-- A concrete error-typed Return for the outcome-exclusivity witness. -/
def errorReturnX : FunctionReturn :=
  { type := .error, value := errObj "E" "m" "s", CallId := "x" }

/-- A concrete value-typed Return for the outcome-exclusivity witness. -/
def okReturnX : FunctionReturn :=
  { type := .value, value := .num 9, CallId := "x" }

/-- The Call paired with the outcome-exclusivity witness Returns. -/
def callX : FunctionCall := { name := "k", args := [], CallId := "x", start := 1 }

/-- A concrete fresh-id supply standing in for uuidv4: distinct draws give
strings of distinct lengths. -/
def genU : Nat → String := fun n => String.mk (List.replicate n 'u')

/-- A Return with both timestamps present but executionStart = 0, for the
ledger merge counterexample. -/
def zeroTsReturn : FunctionReturn :=
  { type := .value, value := .num 1, CallId := "c6"
  , executionStart := some 0, executionEnd := some 5 }

/-- The Call paired with zeroTsReturn. -/
def zeroTsCall : FunctionCall :=
  { name := "g6", args := [], CallId := "c6", start := 0 }

/-- A concrete error-typed Return for the ledger witness. -/
def errorReturnL : FunctionReturn :=
  { type := .error, value := errObj "E" "m" "s", CallId := "c7" }

/-- The Call paired with errorReturnL. -/
def callL : FunctionCall := { name := "w", args := [], CallId := "c7", start := 2 }

/-- The namespace of the spec example: two functions and one constant. -/
def sampleModule : List (String × ModuleEntry) :=
  [("f1", .func ⟨"f1"⟩), ("c", .other (JsValue.num 3)), ("f2", .func ⟨"f2"⟩)]

/-- The world of a second cleanup pass: every deletion request is rejected
because the resource is already absent. -/
def notFoundWorld : Aws.World :=
  { deleteFunctionR := fun _ => Except.error (JsValue.str "ResourceNotFoundException")
  , listAttachedRolePoliciesR := fun _ => Except.error (JsValue.str "NoSuchEntity")
  , detachRolePolicyR := fun _ _ => Except.error (JsValue.str "NoSuchEntity")
  , deleteRolePolicyR := fun _ _ => Except.error (JsValue.str "NoSuchEntity")
  , deleteRoleR := fun _ => Except.error (JsValue.str "NoSuchEntity")
  , deleteLogGroupR := fun _ => Except.error (JsValue.str "ResourceNotFoundException") }

/-- A fully populated state as an instance teardown sees it. -/
def teardownState : Aws.CleanupState :=
  { FunctionName := some "cloudify-123", RoleName := some "cloudify-role-123"
  , logGroupName := some "lg", roleNeedsCleanup := some true
  , noCreateLogGroupPolicy := some "cloudify-deny-create-log-group-policy" }

/-- A process backend state with queued work, running work and live
children. -/
def runningState : ProcessCloudify.State :=
  { childProcesses := [11, 12]
  , callFunnel := { pending := [3, 4], running := [7] } }

/-- A record abandoned by instance A with two resources, old enough to be
an orphan for any later pass. -/
def orphanRecord : Gc.ResourceRecord :=
  { ownerInstanceId := "instA", resourceDescriptors := ["fn-a", "lg-a"]
  , createdAt := 3 }

/-- The deletion outcomes of a second reclamation pass: every resource is
already absent, so every deletion is rejected as not found. -/
def absentDelete : String → Except JsValue Unit :=
  fun _ => Except.error (JsValue.str "ResourceNotFoundException")

/-! Helper lemmas about processResponse and jsAnd. -/

/-- The error field of a processed Response: rebuilt from the Return value
exactly when the Return is error-typed. -/
theorem processResponse_error_eq (ret : FunctionReturn) (call : FunctionCall)
    (m : FunctionMetricsMap) (now : Int) :
    (processResponse ret call m now).1.error =
      (match ret.type with
       | .error => some (mkRemoteError ret.value)
       | .value => none) := by
  cases ht : ret.type <;> cases hs : ret.executionStart <;>
    cases he : ret.executionEnd <;>
      simp [processResponse, ht, hs, he] <;> split <;> simp

/-- The value field of a processed Response is the source expression
!error && returned.value. -/
theorem processResponse_value_eq (ret : FunctionReturn) (call : FunctionCall)
    (m : FunctionMetricsMap) (now : Int) :
    (processResponse ret call m now).1.value =
      jsAnd (JsValue.bool (match ret.type with
        | .error => false
        | .value => true)) ret.value := by
  cases ht : ret.type <;> cases hs : ret.executionStart <;>
    cases he : ret.executionEnd <;>
      simp [processResponse, ht, hs, he] <;> split <;> simp

/-- With both timestamps present and nonzero the three latency fields carry
the three documented differences. -/
theorem processResponse_latency_some (ret : FunctionReturn) (call : FunctionCall)
    (m : FunctionMetricsMap) (now es ee : Int)
    (hs : ret.executionStart = some es) (he : ret.executionEnd = some ee)
    (hes : es ≠ 0) (hee : ee ≠ 0) :
    (processResponse ret call m now).1.startLatency = some (es - call.start) ∧
    (processResponse ret call m now).1.executionLatency = some (ee - es) ∧
    (processResponse ret call m now).1.returnLatency = some (now - ee) := by
  cases ht : ret.type <;> simp [processResponse, ht, hs, he, hes, hee]

/-- With either timestamp absent, or either timestamp present but zero
(falsy), no latency field is set. -/
theorem processResponse_latency_none (ret : FunctionReturn) (call : FunctionCall)
    (m : FunctionMetricsMap) (now : Int)
    (h : truthyTimestamps ret = false) :
    (processResponse ret call m now).1.startLatency = none ∧
    (processResponse ret call m now).1.executionLatency = none ∧
    (processResponse ret call m now).1.returnLatency = none := by
  cases ht : ret.type <;> cases hs : ret.executionStart <;>
    cases he : ret.executionEnd
  all_goals
    first
    | (simp [processResponse, ht, hs, he]; done)
    | (rename_i es ee
       simp [truthyTimestamps, hs, he] at h
       have hz : es = 0 ∨ ee = 0 := by tauto
       simp [processResponse, ht, hs, he, hz])

/-- Conjunction with a truthy left operand yields the right operand. -/
theorem jsAnd_true (b : JsValue) : jsAnd (JsValue.bool true) b = b := rfl

/-- Conjunction with any truthy left operand yields the right operand. -/
theorem jsAnd_truthy {a : JsValue} (h : truthy a = true) (b : JsValue) :
    jsAnd a b = b := by simp [jsAnd, h]

/-- Distinct draws of the concrete fresh-id supply are distinct strings. -/
theorem genU_injective : Function.Injective genU := by
  intro a b h
  have h2 := congrArg (fun s : String => s.data.length) h
  simpa [genU] using h2

/-- processResponse leaves every ledger entry other than the called name
untouched. -/
theorem postLedger_other (ret : FunctionReturn) (call : FunctionCall)
    (m : FunctionMetricsMap) (now : Int) (g : String) (hg : g ≠ call.name) :
    postLedger ret call m now g = m g := by
  cases ht : ret.type <;> cases hs : ret.executionStart <;>
    cases he : ret.executionEnd <;>
      simp [postLedger, processResponse, increment, updateMany, ht, hs, he, hg] <;>
        split <;> simp [increment, updateMany, hg]

/-- processResponse increments the completed counter of the called name by
exactly one. -/
theorem postLedger_completed (ret : FunctionReturn) (call : FunctionCall)
    (m : FunctionMetricsMap) (now : Int) :
    (postLedger ret call m now call.name).completed =
      (m call.name).completed + 1 := by
  cases ht : ret.type <;> cases hs : ret.executionStart <;>
    cases he : ret.executionEnd <;>
      simp [postLedger, processResponse, increment, updateMany, ht, hs, he] <;>
        split <;> simp [increment, updateMany]

/-- processResponse increments the errors counter exactly on error-typed
Returns. -/
theorem postLedger_errors (ret : FunctionReturn) (call : FunctionCall)
    (m : FunctionMetricsMap) (now : Int) :
    (postLedger ret call m now call.name).errors =
      (m call.name).errors +
        (match ret.type with | .error => 1 | .value => 0) := by
  cases ht : ret.type <;> cases hs : ret.executionStart <;>
    cases he : ret.executionEnd <;>
      simp [postLedger, processResponse, increment, updateMany, ht, hs, he] <;>
        split <;> simp [increment, updateMany]

/-- processResponse merges one latency sample into each running average
exactly when both timestamps are truthy. -/
theorem postLedger_samples (ret : FunctionReturn) (call : FunctionCall)
    (m : FunctionMetricsMap) (now : Int) :
    (postLedger ret call m now call.name).startLatency.samples =
      (m call.name).startLatency.samples +
        (if truthyTimestamps ret then 1 else 0) ∧
    (postLedger ret call m now call.name).executionLatency.samples =
      (m call.name).executionLatency.samples +
        (if truthyTimestamps ret then 1 else 0) ∧
    (postLedger ret call m now call.name).returnLatency.samples =
      (m call.name).returnLatency.samples +
        (if truthyTimestamps ret then 1 else 0) := by
  refine ⟨?_, ?_, ?_⟩ <;>
  (cases ht : ret.type <;> cases hs : ret.executionStart <;>
    cases he : ret.executionEnd
   all_goals
     first
     | (simp [postLedger, processResponse, increment, updateMany,
          truthyTimestamps, LatencyAgg.add, ht, hs, he]
        done)
     | (rename_i es ee
        by_cases hz : es = 0 ∨ ee = 0 <;>
          simp [postLedger, processResponse, increment, updateMany,
            truthyTimestamps, LatencyAgg.add, ht, hs, he, hz]))

/-- One processed Return never decreases the completed or errors counter of
any ledger entry. -/
theorem postLedger_mono (ret : FunctionReturn) (call : FunctionCall)
    (m : FunctionMetricsMap) (now : Int) (g : String) :
    (m g).completed ≤ (postLedger ret call m now g).completed ∧
    (m g).errors ≤ (postLedger ret call m now g).errors := by
  rcases eq_or_ne g call.name with hg | hg
  · subst hg
    constructor
    · rw [postLedger_completed]
      omega
    · rw [postLedger_errors]
      omega
  · rw [postLedger_other ret call m now g hg]
    exact ⟨le_refl _, le_refl _⟩

/-- Over any facade lifetime the counters never decrease. -/
theorem processAll_mono (events : List (FunctionReturn × FunctionCall × Int))
    (m : FunctionMetricsMap) (g : String) :
    (m g).completed ≤ (processAll events m g).completed ∧
    (m g).errors ≤ (processAll events m g).errors := by
  induction events generalizing m with
  | nil => exact ⟨le_refl _, le_refl _⟩
  | cons e rest ih =>
    have h1 := postLedger_mono e.1 e.2.1 m e.2.2 g
    have h2 := ih ((processResponse e.1 e.2.1 m e.2.2).2)
    simp only [processAll, List.foldl_cons] at h2 ⊢
    exact ⟨le_trans h1.1 h2.1, le_trans h1.2 h2.2⟩

/-! Claim theorems. -/

/-- Claim C1, amended to the facade path: an invocation of the proxy built by
CloudFunction.cloudifyWithResponse resolves with a Response for every backend
outcome. A rejection of the backend callFunction with reason v is turned into
the synthesized error Return whose executionStart is the attempt submission
time and whose executionEnd is the failure time, and either Return is passed
through processResponse, the normal response-building path. The aws
direct-path proxy cited by the claim does not share this guarantee, see the
counterexample. -/
theorem facade_invocation_always_resolves
    (fn : JsFunc) (args : List JsValue) (callId : String)
    (start failTime now : Int) (backend : Except JsValue FunctionReturn)
    (m : FunctionMetricsMap) :
    (∀ v, backend = Except.error v →
      cloudifyWithResponse fn args callId start backend failTime now m =
        processResponse
          { type := .error, value := v, CallId := callId
          , executionStart := some start, executionEnd := some failTime }
          { name := fn.name, args := args, CallId := callId, start := start }
          m now) ∧
    (∀ r, backend = Except.ok r →
      cloudifyWithResponse fn args callId start backend failTime now m =
        processResponse r
          { name := fn.name, args := args, CallId := callId, start := start }
          m now) := by
  constructor
  · intro v h
    subst h
    rfl
  · intro r h
    subst h
    rfl

/-- Claim C1 counterexample: the aws cloudifyWithResponse proxy does not
catch a rejection of the awaited lambda invoke, so on a transport failure
the invocation rejects with the raw failure instead of resolving with a
Response, refuting the claim for that cited path. -/
theorem aws_transport_rejection_propagates :
    Aws.cloudifyWithResponse (fun _ => "") (fun _ => JsValue.undefined) "FN" ⟨"f"⟩ []
      (fun _ => Except.error (JsValue.str "ETIMEDOUT")) =
      Except.error (JsValue.str "ETIMEDOUT") := rfl

/-- Witness for C1: a concrete rejected backend call is synthesized into the
error Return with the attempt timestamps and processed normally. -/
theorem facade_invocation_always_resolves_witness :
    cloudifyWithResponse ⟨"f"⟩ [] "c5" 100
        (Except.error (JsValue.str "boom")) 150 200 emptyLedger =
      processResponse
        { type := .error, value := JsValue.str "boom", CallId := "c5"
        , executionStart := some 100, executionEnd := some 150 }
        { name := "f", args := [], CallId := "c5", start := 100 }
        emptyLedger 200 :=
  (facade_invocation_always_resolves ⟨"f"⟩ [] "c5" 100 150 200
    (Except.error (JsValue.str "boom")) emptyLedger).1 (JsValue.str "boom") rfl

/-- Claim C2, amended: for a Return carrying both executionStart and
executionEnd as nonzero (truthy) values the Response exposes the three
latencies startLatency = executionStart minus the Call submission time,
executionLatency = executionEnd minus executionStart, and returnLatency =
the processing wall time minus executionEnd; whenever the timestamps are
not both present and nonzero — either one absent, or either one present
but zero (falsy) — none of the three fields is set. The amendment
restricts the positive part to nonzero timestamps, forced by the
counterexample at executionStart = 0, and the negative part covers every
non-truthy combination through truthyTimestamps. -/
theorem latency_fields_from_truthy_timestamps
    (ret : FunctionReturn) (call : FunctionCall)
    (m : FunctionMetricsMap) (now : Int) :
    (∀ es ee, ret.executionStart = some es → ret.executionEnd = some ee →
      es ≠ 0 → ee ≠ 0 →
      (processResponse ret call m now).1.startLatency = some (es - call.start) ∧
      (processResponse ret call m now).1.executionLatency = some (ee - es) ∧
      (processResponse ret call m now).1.returnLatency = some (now - ee)) ∧
    (truthyTimestamps ret = false →
      (processResponse ret call m now).1.startLatency = none ∧
      (processResponse ret call m now).1.executionLatency = none ∧
      (processResponse ret call m now).1.returnLatency = none) :=
  ⟨fun es ee hs he hes hee =>
    processResponse_latency_some ret call m now es ee hs he hes hee,
   fun h => processResponse_latency_none ret call m now h⟩

/-- Claim C2 counterexample: this Return carries both timestamps
(executionStart = some 0, executionEnd = some 1200), yet the code computes
no latency field, because a 0 timestamp is falsy in the truthiness test;
the claim as stated requires startLatency = some (0 - 1000) here. -/
theorem latency_zero_timestamp_not_computed :
    zeroStartReturn.executionStart = some 0 ∧
    zeroStartReturn.executionEnd = some 1200 ∧
    (processResponse zeroStartReturn zeroStartCall emptyLedger 1250).1.startLatency = none ∧
    (processResponse zeroStartReturn zeroStartCall emptyLedger 1250).1.executionLatency = none ∧
    (processResponse zeroStartReturn zeroStartCall emptyLedger 1250).1.returnLatency = none :=
  ⟨rfl, rfl, rfl, rfl, rfl⟩

/-- Witness for C2, both branches at concrete inputs: the worked example of
the spec (start 1000, executionStart 1050, executionEnd 1200, processed at
1250 gives latencies 50, 150 and 50), and a present-but-zero executionStart
under which the negative branch gives no latency field. -/
theorem latency_fields_from_truthy_timestamps_witness :
    (processResponse specExampleReturn specExampleCall emptyLedger 1250).1.startLatency = some 50 ∧
    (processResponse specExampleReturn specExampleCall emptyLedger 1250).1.executionLatency = some 150 ∧
    (processResponse specExampleReturn specExampleCall emptyLedger 1250).1.returnLatency = some 50 ∧
    (processResponse zeroStartReturn zeroStartCall emptyLedger 1250).1.startLatency = none := by
  have h := (latency_fields_from_truthy_timestamps specExampleReturn
    specExampleCall emptyLedger 1250).1 1050 1200 rfl rfl (by decide) (by decide)
  have h2 := (latency_fields_from_truthy_timestamps zeroStartReturn
    zeroStartCall emptyLedger 1250).2 (by decide)
  exact ⟨h.1, h.2.1, h.2.2, h2.1⟩

/-- Claim C3: a Return whose error value carries name N, message M and stack
S yields a Response error with exactly those three properties, on the facade
path (processResponse), on the unwrapping cloudify path (which throws that
same error), and on the aws direct path for a parsed error-typed payload. -/
theorem remote_error_identity_preserved
    (N M S : String) (ret : FunctionReturn) (call : FunctionCall)
    (m : FunctionMetricsMap) (now : Int)
    (htype : ret.type = ReturnType.error)
    (hval : ret.value = errObj N M S) :
    (processResponse ret call m now).1.error =
      some ⟨JsValue.str N, JsValue.str M, JsValue.str S⟩ ∧
    (∀ fn args callId start failTime,
      (cloudify fn args callId start (Except.ok ret) failTime now m).1 =
        Except.error ⟨JsValue.str N, JsValue.str M, JsValue.str S⟩) ∧
    (∀ (parse : String → JsValue) (raw : JsValue) (s : String),
      getProp raw "FunctionError" = JsValue.undefined →
      getProp raw "Payload" = JsValue.str s → s ≠ "" →
      parse s = JsValue.obj [("type", .str "error"), ("value", errObj N M S)] →
      (Aws.processRawResponse parse raw).error =
        some ⟨JsValue.str N, JsValue.str M, JsValue.str S⟩) := by
  have herr : ∀ c : FunctionCall, (processResponse ret c m now).1.error =
      some ⟨JsValue.str N, JsValue.str M, JsValue.str S⟩ := by
    intro c
    rw [processResponse_error_eq, htype, hval]
    simp [mkRemoteError, errObj, getProp, findProp]
  refine ⟨herr call, ?_, ?_⟩
  · intro fn args callId start failTime
    have h2 : (cloudifyWithResponse fn args callId start (Except.ok ret)
        failTime now m).1.error =
        some ⟨JsValue.str N, JsValue.str M, JsValue.str S⟩ := by
      simpa [cloudifyWithResponse] using
        herr { name := fn.name, args := args, CallId := callId, start := start }
    simp [cloudify, cloudifyWithResponse] at h2 ⊢
    rw [h2]
  · intro parse raw s hFE hP hs hparse
    have hret : Aws.returnedOf parse raw =
        JsValue.obj [("type", .str "error"), ("value", errObj N M S)] := by
      simp [Aws.returnedOf, Aws.errorFromFunctionError, hFE, hP, hparse,
        truthy, jsAnd, hs]
    simp [Aws.processRawResponse, hret, Aws.errorFromFunctionError, hFE,
      truthy, strictEqStr, getProp, findProp, mkRemoteError, errObj, jsAnd]

/-- Witness for C3, the worked example of the spec: a remote error with name
ValidationError and message bad input is observed verbatim. -/
theorem remote_error_identity_preserved_witness :
    (processResponse validationReturn validationCall emptyLedger 1250).1.error =
      some ⟨JsValue.str "ValidationError", JsValue.str "bad input",
            JsValue.str "st"⟩ :=
  (remote_error_identity_preserved "ValidationError" "bad input" "st"
    validationReturn validationCall emptyLedger 1250 rfl rfl).1

/-- Claim C4: an invocation of the proxy built by CloudFunction.cloudify
throws exactly the error of the underlying Response when one is set, and
otherwise returns exactly the bare value of that Response, with no
transport metadata around it. -/
theorem cloudify_unwraps_response
    (fn : JsFunc) (args : List JsValue) (callId : String) (start : Int)
    (backend : Except JsValue FunctionReturn) (failTime now : Int)
    (m : FunctionMetricsMap) :
    (∀ e, (cloudifyWithResponse fn args callId start backend failTime now m).1.error
        = some e →
      (cloudify fn args callId start backend failTime now m).1 = Except.error e) ∧
    ((cloudifyWithResponse fn args callId start backend failTime now m).1.error
        = none →
      (cloudify fn args callId start backend failTime now m).1 =
        Except.ok (cloudifyWithResponse fn args callId start backend failTime now m).1.value) := by
  constructor
  · intro e h
    simp [cloudify, h]
  · intro h
    simp [cloudify, h]

/-- Witness for C4: the concrete ValidationError Response is rethrown as is
by the unwrapping proxy. -/
theorem cloudify_unwraps_response_witness :
    (cloudify ⟨"h"⟩ [] "c4" 0 (Except.ok validationReturn) 0 1250 emptyLedger).1 =
      Except.error ⟨JsValue.str "ValidationError", JsValue.str "bad input",
        JsValue.str "st"⟩ :=
  (cloudify_unwraps_response ⟨"h"⟩ [] "c4" 0 (Except.ok validationReturn) 0 1250
    emptyLedger).1
    ⟨JsValue.str "ValidationError", JsValue.str "bad input", JsValue.str "st"⟩ rfl

/-- Claim C5, amended to the facade path: every invocation of a proxy built
by CloudFunction.cloudifyWithResponse builds a Call whose CallId is the
fresh uuid draw of that invocation and whose start is the submission time,
and two different invocations of one facade never share a CallId, given
that the uuid supply never repeats (the idealization of uuidv4). The aws
direct-path proxy cited by the claim builds its Call without any CallId or
start, see the counterexample. -/
theorem facade_call_fresh_callId_and_start
    (gen : Nat → String) (hinj : Function.Injective gen)
    (fn1 fn2 : JsFunc) (a1 a2 : List JsValue) (i j : Nat) (t1 t2 : Int)
    (hij : i ≠ j) :
    (facadeBuildCall gen fn1 a1 i t1).CallId = gen i ∧
    (facadeBuildCall gen fn1 a1 i t1).start = t1 ∧
    (facadeBuildCall gen fn1 a1 i t1).CallId ≠
      (facadeBuildCall gen fn2 a2 j t2).CallId := by
  refine ⟨rfl, rfl, ?_⟩
  intro h
  exact hij (hinj h)

/-- Claim C5 counterexample: the callArgs object the aws direct-path proxy
sends has no CallId and no start property at all, refuting the claim that
every wrapped-proxy invocation builds a Call containing a fresh callId and
the submission timestamp. -/
theorem aws_call_args_lack_callId :
    getProp (Aws.buildCallArgs ⟨"f"⟩ [JsValue.num 1]) "CallId" = JsValue.undefined ∧
    getProp (Aws.buildCallArgs ⟨"f"⟩ [JsValue.num 1]) "start" = JsValue.undefined ∧
    getProp (Aws.buildCallArgs ⟨"f"⟩ [JsValue.num 1]) "name" = JsValue.str "f" :=
  ⟨rfl, rfl, rfl⟩

/-- Witness for C5: two concrete invocations through one facade carry their
submission times and distinct CallIds. -/
theorem facade_call_fresh_callId_and_start_witness :
    (facadeBuildCall genU ⟨"f"⟩ [] 0 100).CallId = genU 0 ∧
    (facadeBuildCall genU ⟨"f"⟩ [] 0 100).start = 100 ∧
    (facadeBuildCall genU ⟨"f"⟩ [] 0 100).CallId ≠
      (facadeBuildCall genU ⟨"g"⟩ [JsValue.num 2] 1 101).CallId :=
  facade_call_fresh_callId_and_start genU genU_injective ⟨"f"⟩ ⟨"g"⟩ []
    [JsValue.num 2] 0 1 100 101 (by decide)

/-- Claim C6, amended: every processed Return increments the completed
counter of the called name by exactly one and touches no other entry; the
errors counter is incremented exactly on error outcomes; the latency
averages are merged exactly when both execution timestamps are present and
nonzero (truthy) — the amendment forced by the counterexample at
executionStart = 0; and the counters never decrease over any facade
lifetime of processed Returns. -/
theorem ledger_update_per_response
    (ret : FunctionReturn) (call : FunctionCall) (m : FunctionMetricsMap)
    (now : Int) :
    (postLedger ret call m now call.name).completed =
      (m call.name).completed + 1 ∧
    (∀ g, g ≠ call.name → postLedger ret call m now g = m g) ∧
    (ret.type = ReturnType.error →
      (postLedger ret call m now call.name).errors =
        (m call.name).errors + 1) ∧
    (ret.type = ReturnType.value →
      (postLedger ret call m now call.name).errors = (m call.name).errors) ∧
    ((postLedger ret call m now call.name).startLatency.samples =
      (m call.name).startLatency.samples +
        (if truthyTimestamps ret then 1 else 0)) ∧
    ((postLedger ret call m now call.name).executionLatency.samples =
      (m call.name).executionLatency.samples +
        (if truthyTimestamps ret then 1 else 0)) ∧
    ((postLedger ret call m now call.name).returnLatency.samples =
      (m call.name).returnLatency.samples +
        (if truthyTimestamps ret then 1 else 0)) ∧
    (∀ events g,
      (m g).completed ≤ (processAll events m g).completed ∧
      (m g).errors ≤ (processAll events m g).errors) := by
  have hsamp := postLedger_samples ret call m now
  refine ⟨postLedger_completed ret call m now,
    fun g hg => postLedger_other ret call m now g hg, ?_, ?_,
    hsamp.1, hsamp.2.1, hsamp.2.2,
    fun events g => processAll_mono events m g⟩
  · intro ht
    rw [postLedger_errors, ht]
  · intro ht
    rw [postLedger_errors, ht]
    simp

/-- Claim C6 counterexample: a Return with both timestamps present but
executionStart = 0 is counted as completed, yet no latency sample is
merged, because a 0 timestamp is falsy; the claim as stated requires a
merge whenever both timestamps are present. -/
theorem ledger_zero_timestamp_not_merged :
    zeroTsReturn.executionStart = some 0 ∧
    zeroTsReturn.executionEnd = some 5 ∧
    ((processResponse zeroTsReturn zeroTsCall emptyLedger 10).2 "g6").startLatency.samples = 0 ∧
    ((processResponse zeroTsReturn zeroTsCall emptyLedger 10).2 "g6").completed = 1 :=
  ⟨rfl, rfl, rfl, rfl⟩

/-- Witness for C6: one concrete error Return gives completed 1, errors 1
at the called name and leaves other entries untouched. -/
theorem ledger_update_per_response_witness :
    (postLedger errorReturnL callL emptyLedger 5 "w").completed = 1 ∧
    (postLedger errorReturnL callL emptyLedger 5 "w").errors = 1 ∧
    (postLedger errorReturnL callL emptyLedger 5 "other") = emptyLedger "other" := by
  have h := ledger_update_per_response errorReturnL callL emptyLedger 5
  exact ⟨h.1, h.2.2.1 rfl, h.2.1 "other" (by decide)⟩

/-- Claim C7: cloudifyAll and cloudifyAllWithResponse wrap exactly the
function-valued entries of the input namespace under their own keys, omit
every non-function entry, and introduce nothing else; the key order of the
result is the key order of the function entries of the input. The input
itself is only read (the source loop writes solely into the fresh result
object), which the pure embedding reflects. -/
theorem cloudifyAll_wraps_functions_only
    (mod : List (String × ModuleEntry)) :
    (∀ k f, (k, ModuleEntry.func f) ∈ mod →
      (k, WrappedEntry.promisified f) ∈ cloudifyAll mod ∧
      (k, WrappedEntry.responsified f) ∈ cloudifyAllWithResponse mod) ∧
    (∀ k w, (k, w) ∈ cloudifyAll mod →
      ∃ f, w = WrappedEntry.promisified f ∧ (k, ModuleEntry.func f) ∈ mod) ∧
    (∀ k w, (k, w) ∈ cloudifyAllWithResponse mod →
      ∃ f, w = WrappedEntry.responsified f ∧ (k, ModuleEntry.func f) ∈ mod) ∧
    ((cloudifyAll mod).map Prod.fst =
      (mod.filter fun kv => isFuncEntry kv.2).map Prod.fst) ∧
    ((cloudifyAllWithResponse mod).map Prod.fst =
      (mod.filter fun kv => isFuncEntry kv.2).map Prod.fst) := by
  refine ⟨?_, ?_, ?_, ?_, ?_⟩
  · intro k f hk
    constructor
    · apply List.mem_filterMap.mpr
      exact ⟨(k, ModuleEntry.func f), hk, rfl⟩
    · apply List.mem_filterMap.mpr
      exact ⟨(k, ModuleEntry.func f), hk, rfl⟩
  · intro k w hk
    rcases List.mem_filterMap.mp hk with ⟨⟨k2, e⟩, he, heq⟩
    cases e with
    | func f =>
      simp only [cloudifyAll] at heq
      cases heq
      exact ⟨f, rfl, he⟩
    | other v => simp [cloudifyAll] at heq
  · intro k w hk
    rcases List.mem_filterMap.mp hk with ⟨⟨k2, e⟩, he, heq⟩
    cases e with
    | func f =>
      simp only [cloudifyAllWithResponse] at heq
      cases heq
      exact ⟨f, rfl, he⟩
    | other v => simp [cloudifyAllWithResponse] at heq
  · induction mod with
    | nil => rfl
    | cons kv rest ih =>
      rcases kv with ⟨k, e⟩
      cases e <;> simp [cloudifyAll, isFuncEntry, List.filterMap_cons] at ih ⊢ <;>
        exact ih
  · induction mod with
    | nil => rfl
    | cons kv rest ih =>
      rcases kv with ⟨k, e⟩
      cases e <;>
        simp [cloudifyAllWithResponse, isFuncEntry, List.filterMap_cons] at ih ⊢ <;>
        exact ih

/-- Witness for C7, the worked example of the spec: in a namespace of two
functions and one constant the functions are wrapped under their keys. -/
theorem cloudifyAll_wraps_functions_only_witness :
    ("f1", WrappedEntry.promisified ⟨"f1"⟩) ∈ cloudifyAll sampleModule ∧
    ("f1", WrappedEntry.responsified ⟨"f1"⟩) ∈ cloudifyAllWithResponse sampleModule :=
  (cloudifyAll_wraps_functions_only sampleModule).1 "f1" ⟨"f1"⟩ (List.Mem.head _)

/-- Claim C8: deletion is idempotent and total on both cited surfaces.
Cleanup: for every world of request outcomes every deletion failure,
including the rejection for an already absent resource, is confined by the
carefully wrapper into a log entry, and a failing step never prevents the
later deletion requests from being issued — the function, the role and the
log group deletions all appear in the request trace whatever the outcomes,
so a second pass over an already emptied resource set (the all-rejecting
world) also completes without raising. Garbage collection: for every
assignment of deletion outcomes the reclamation pass attempts every
descriptor of every orphan record and records each failure as a log entry,
so one failed deletion never aborts the remaining ones and rerunning the
pass when every resource is already absent never raises. -/
theorem cleanup_total_and_non_aborting
    (w : Aws.World) (st : Aws.CleanupState) :
    (∀ f, st.FunctionName = some f → f ≠ "" →
      Aws.Op.deleteFunction f ∈ (Aws.cleanup w st).1 ∧
      (∀ e, w.deleteFunctionR f = Except.error e → e ∈ (Aws.cleanup w st).2)) ∧
    (∀ r, st.RoleName = some r → r ≠ "" → st.roleNeedsCleanup = some true →
      Aws.Op.deleteRole r ∈ (Aws.cleanup w st).1) ∧
    (∀ g, st.logGroupName = some g → g ≠ "" →
      Aws.Op.deleteLogGroup g ∈ (Aws.cleanup w st).1 ∧
      (∀ e, w.deleteLogGroupR g = Except.error e → e ∈ (Aws.cleanup w st).2)) ∧
    (∀ (deleteResource : String → Except JsValue Unit) (own : String)
       (retention nowT : Int) (records : List Gc.ResourceRecord)
       (rec : Gc.ResourceRecord), rec ∈ records →
      Gc.isOrphan own retention nowT rec = true →
      ∀ d ∈ rec.resourceDescriptors,
        d ∈ (Gc.reclaim deleteResource own retention nowT records).1 ∧
        (∀ e, deleteResource d = Except.error e →
          e ∈ (Gc.reclaim deleteResource own retention nowT records).2)) := by
  refine ⟨?_, ?_, ?_, ?_⟩
  · intro f hf hne
    constructor
    · simp [Aws.cleanup, hf, hne]
    · intro e he
      simp [Aws.cleanup, hf, hne, Aws.carefully, he]
  · intro r hr hne hneeds
    simp [Aws.cleanup, hr, hne, hneeds, Aws.deleteRole]
  · intro g hg hne
    constructor
    · simp [Aws.cleanup, hg, hne]
    · intro e he
      simp [Aws.cleanup, hg, hne, Aws.carefully, he]
  · intro deleteResource own retention nowT records rec hrec horph d hd
    constructor
    · simp only [Gc.reclaim, List.mem_flatten, List.mem_map]
      exact ⟨rec.resourceDescriptors,
        ⟨rec, List.mem_filter.mpr ⟨hrec, horph⟩, rfl⟩, hd⟩
    · intro e he
      simp only [Gc.reclaim, List.mem_flatten, List.mem_map]
      refine ⟨(Gc.worker deleteResource rec).2,
        ⟨rec, List.mem_filter.mpr ⟨hrec, horph⟩, rfl⟩, ?_⟩
      simp only [Gc.worker, List.mem_flatten, List.mem_map]
      exact ⟨[e], ⟨d, hd, by rw [he]⟩, List.Mem.head _⟩

/-- Witness for C8: in the world where every resource is already absent
(every request rejected) the full teardown still issues all three
deletions and records the rejection, and a reclamation pass by instance B
over the record instance A left behind, with every resource already gone,
still attempts both descriptors and logs the rejection, without raising. -/
theorem cleanup_total_and_non_aborting_witness :
    Aws.Op.deleteFunction "cloudify-123" ∈ (Aws.cleanup notFoundWorld teardownState).1 ∧
    Aws.Op.deleteRole "cloudify-role-123" ∈ (Aws.cleanup notFoundWorld teardownState).1 ∧
    Aws.Op.deleteLogGroup "lg" ∈ (Aws.cleanup notFoundWorld teardownState).1 ∧
    JsValue.str "ResourceNotFoundException" ∈ (Aws.cleanup notFoundWorld teardownState).2 ∧
    "fn-a" ∈ (Gc.reclaim absentDelete "instB" 0 10 [orphanRecord]).1 ∧
    JsValue.str "ResourceNotFoundException" ∈
      (Gc.reclaim absentDelete "instB" 0 10 [orphanRecord]).2 := by
  have h := cleanup_total_and_non_aborting notFoundWorld teardownState
  have hgc := h.2.2.2 absentDelete "instB" 0 10 [orphanRecord] orphanRecord
    (List.Mem.head _) (by decide) "fn-a" (by decide)
  exact ⟨(h.1 "cloudify-123" rfl (by decide)).1,
    h.2.1 "cloudify-role-123" rfl (by decide) rfl,
    (h.2.2.1 "lg" rfl (by decide)).1,
    (h.1 "cloudify-123" rfl (by decide)).2 (JsValue.str "ResourceNotFoundException") rfl,
    hgc.1,
    hgc.2 (JsValue.str "ResourceNotFoundException") rfl⟩

/-- Claim C9: stop of the process backend first clears every not-yet-started
funnel task, leaves the running set alone, and its resolution condition is
that every child process live at stop time has exited: if the awaited
Promise.all is resolved under an exit assignment, then every child of the
instance has exited under that assignment. -/
theorem stop_cancels_pending_and_awaits_children (s : ProcessCloudify.State) :
    (ProcessCloudify.stop s).state.callFunnel.pending = [] ∧
    (ProcessCloudify.stop s).state.callFunnel.running = s.callFunnel.running ∧
    (ProcessCloudify.stop s).awaited = s.childProcesses ∧
    (ProcessCloudify.stop s).killed = s.childProcesses ∧
    (∀ exited : Nat → Bool,
      ProcessCloudify.stopResolved exited (ProcessCloudify.stop s).awaited = true →
      ∀ p ∈ s.childProcesses, exited p = true) := by
  refine ⟨rfl, rfl, rfl, rfl, ?_⟩
  intro exited h p hp
  have h2 := List.all_eq_true.mp h
  exact h2 p hp

/-- Witness for C9: a concrete state with queued tasks, a running task and
two children. -/
theorem stop_cancels_pending_and_awaits_children_witness :
    (ProcessCloudify.stop runningState).state.callFunnel.pending = [] ∧
    (ProcessCloudify.stop runningState).state.callFunnel.running = [7] ∧
    (ProcessCloudify.stop runningState).awaited = [11, 12] ∧
    (ProcessCloudify.stop runningState).killed = [11, 12] ∧
    (∀ p ∈ runningState.childProcesses, (fun _ => true : Nat → Bool) p = true) := by
  have h := stop_cancels_pending_and_awaits_children runningState
  exact ⟨h.1, h.2.1, h.2.2.1, h.2.2.2.1, h.2.2.2.2 (fun _ => true) rfl⟩

/-- Claim C10: a Response is outcome-exclusive on both cited paths. On the
facade path, when the error field is set the value field is the fixed
falsy literal false (never the remote payload), and when no error is set
the value field is exactly the returned value. On the aws direct path the
same holds: an error forces value to the literal false, and with no error
and a truthy parsed Return the value field is exactly the value property
of that Return. -/
theorem response_outcome_mutually_exclusive
    (ret : FunctionReturn) (call : FunctionCall) (m : FunctionMetricsMap)
    (now : Int) (parse : String → JsValue) (raw : JsValue) :
    ((processResponse ret call m now).1.error.isSome = true →
      (processResponse ret call m now).1.value = JsValue.bool false) ∧
    ((processResponse ret call m now).1.error = none →
      (processResponse ret call m now).1.value = ret.value) ∧
    ((Aws.processRawResponse parse raw).error.isSome = true →
      (Aws.processRawResponse parse raw).value = JsValue.bool false) ∧
    ((Aws.processRawResponse parse raw).error = none →
      truthy (Aws.returnedOf parse raw) = true →
      (Aws.processRawResponse parse raw).value =
        getProp (Aws.returnedOf parse raw) "value") := by
  have hv : (Aws.processRawResponse parse raw).value =
      jsAnd (jsAnd (JsValue.bool ((Aws.processRawResponse parse raw).error).isNone)
        (Aws.returnedOf parse raw))
        (getProp (Aws.returnedOf parse raw) "value") := rfl
  refine ⟨?_, ?_, ?_, ?_⟩
  · intro h
    have he := processResponse_error_eq ret call m now
    have hva := processResponse_value_eq ret call m now
    cases ht : ret.type
    · rw [ht] at he; simp [he] at h
    · rw [ht] at hva; rw [hva]; simp [jsAnd, truthy]
  · intro h
    have he := processResponse_error_eq ret call m now
    have hva := processResponse_value_eq ret call m now
    cases ht : ret.type
    · rw [ht] at hva; rw [hva]; simp [jsAnd, truthy]
    · rw [ht] at he; rw [he] at h; simp at h
  · intro h
    rcases he : (Aws.processRawResponse parse raw).error with _ | e
    · rw [he] at h; simp at h
    · rw [hv, he]; simp [jsAnd, truthy]
  · intro h ht
    rw [hv, h]
    simp only [Option.isNone_none, jsAnd_true, jsAnd_truthy ht]

/-- Witness for C10: a concrete error Return yields value = the literal
false, and a concrete value Return yields its payload. -/
theorem response_outcome_mutually_exclusive_witness :
    (processResponse errorReturnX callX emptyLedger 5).1.value = JsValue.bool false ∧
    (processResponse okReturnX callX emptyLedger 5).1.value = JsValue.num 9 := by
  constructor
  · exact (response_outcome_mutually_exclusive errorReturnX callX emptyLedger 5
      (fun _ => JsValue.undefined) JsValue.undefined).1 rfl
  · exact (response_outcome_mutually_exclusive okReturnX callX emptyLedger 5
      (fun _ => JsValue.undefined) JsValue.undefined).2.1 rfl
